import Mathlib

/-!
Verification development for the MA stars structural-modeling pipeline.

The pipeline stages are shallowly embedded over lists of records, with
exact rational arithmetic in place of SQL DOUBLE / numpy float64:

* `buildWeights`       — src/05_build_weights.py (contract_county_weights)
* `povExposureRow`     — src/07_build_poverty_exposure.py
* `ruralExposureRow`   — src/11_build_rural_exposure.py
* `hpsaExposureRow`    — src/16_build_hpsa_exposure.py
* `geoHHI` etc.        — src/14_model_full_stars.py (geo concentration)
* `dropCore`, `imputeEnroll` — src/14_model_full_stars.py (model frame prep)
* `probsFromCumul`, `expectedRating` — src/14_model_full_stars.py (decomposition)
* `nearThreshold`      — src/08_build_near_threshold_analysis.py
* `bootstrapDiff`      — src/09_threshold_stats.py
-/

namespace MAStars

/-- One staged enrollment record (`enrollment_union` row in
`05_build_weights.py`); `enrollment` is nullable (SQL BIGINT NULL). -/
structure EnrollmentRow where
  contract_id : String
  year : Int
  county_fips : String
  enrollment : Option Int
deriving DecidableEq, Repr

/-- One `contract_county_weights` row produced by `05_build_weights.py`. -/
structure WeightRow where
  contract_id : String
  year : Int
  county_fips : String
  enrollment : Int
  contract_year_total_enrollment : Int
  w_enroll : ℚ
deriving DecidableEq, Repr

/-- The `WHERE enrollment IS NOT NULL AND enrollment > 0` predicate of
`05_build_weights.py`. -/
def enrollmentKept (r : EnrollmentRow) : Bool :=
  match r.enrollment with
  | some e => decide (0 < e)
  | none => false

/-- Rows retained by the WHERE clause (applied before the window sum). -/
def retained (rows : List EnrollmentRow) : List EnrollmentRow :=
  rows.filter enrollmentKept

/-- Enrollment value of a retained row. -/
def enrollVal (r : EnrollmentRow) : Int :=
  r.enrollment.getD 0

/-- `SUM(enrollment) OVER (PARTITION BY contract_id, year)`: the window sum
over the rows that survived the WHERE clause. -/
def contractYearTotal (rows : List EnrollmentRow) (cid : String) (y : Int) : Int :=
  (((retained rows).filter
      (fun r => decide (r.contract_id = cid ∧ r.year = y))).map enrollVal).sum

/-- The `contract_county_weights` table of `05_build_weights.py`:
filter non-positive / null enrollment, then weight each retained row by
its enrollment over the partition total. -/
def buildWeights (rows : List EnrollmentRow) : List WeightRow :=
  (retained rows).map (fun r =>
    { contract_id := r.contract_id
      year := r.year
      county_fips := r.county_fips
      enrollment := enrollVal r
      contract_year_total_enrollment := contractYearTotal rows r.contract_id r.year
      w_enroll := (enrollVal r : ℚ) / (contractYearTotal rows r.contract_id r.year : ℚ) })

/-- The weight rows of one (contract_id, year) group. -/
def groupWeights (weights : List WeightRow) (cid : String) (y : Int) : List WeightRow :=
  weights.filter (fun w => decide (w.contract_id = cid ∧ w.year = y))

/-- Sum of `w_enroll` over one contract-year group (the QC quantity `wsum`
of `05_build_weights.py`). -/
def groupWeightSum (weights : List WeightRow) (cid : String) (y : Int) : ℚ :=
  ((groupWeights weights cid y).map WeightRow.w_enroll).sum

/-- One `county_poverty` row (SAIPE staging); `pov_rate_all` is nullable. -/
structure PovertyRow where
  year : Int
  county_fips : String
  pov_rate_all : Option ℚ
deriving DecidableEq, Repr

/-- One `county_rucc_2023` row; `rural_indicator` is nullable. -/
structure RuralRow where
  county_fips : String
  rural_indicator : Option ℚ
deriving DecidableEq, Repr

/-- One renormalized exposure row (`contract_year_poverty_exposure_clean` of
`07_build_poverty_exposure.py` / `contract_year_rural_exposure` of
`11_build_rural_exposure.py`). `out_of_scope` embeds the 0/1 column
`out_of_scope_geography`. -/
structure ExposureRow where
  contract_id : String
  contract_year : Int
  total_enrollment : Int
  exposure : Option ℚ
  coverage_weight_share : ℚ
  out_of_scope : Bool
deriving DecidableEq, Repr

/-- SQL LEFT JOIN, viewed from one left row: the attribute values of all
matching right rows, or a single NULL when nothing matches. -/
def leftJoinVals {α : Type} (attr : α → Option ℚ) (pred : α → Bool) (tbl : List α) : List (Option ℚ) :=
  let ms := tbl.filter pred
  if ms.isEmpty then [none] else ms.map attr

/-- Join condition of `07_build_poverty_exposure.py`:
`p.county_fips = w.county_fips AND p.year = w.year - 1` (the poverty lag). -/
def povMatchPred (w : WeightRow) (p : PovertyRow) : Bool :=
  decide (p.county_fips = w.county_fips ∧ p.year = w.year - 1)

/-- Joined poverty values for one weight row. -/
def povJoinVals (pov : List PovertyRow) (w : WeightRow) : List (Option ℚ) :=
  leftJoinVals PovertyRow.pov_rate_all (povMatchPred w) pov

/-- Join condition of `11_build_rural_exposure.py`:
`r.county_fips = w.county_fips` (no temporal lag). -/
def ruralMatchPred (w : WeightRow) (r : RuralRow) : Bool :=
  decide (r.county_fips = w.county_fips)

/-- Joined rural-indicator values for one weight row. -/
def ruralJoinVals (rur : List RuralRow) (w : WeightRow) : List (Option ℚ) :=
  leftJoinVals RuralRow.rural_indicator (ruralMatchPred w) rur

/-- The `joined` CTE restricted to one contract-year group:
(w_enroll, attribute value) pairs, one per joined row. -/
def exposurePairs (joinVals : WeightRow → List (Option ℚ)) (grp : List WeightRow) :
    List (ℚ × Option ℚ) :=
  grp.flatMap (fun w => (joinVals w).map (fun v => (w.w_enroll, v)))

/-- `SUM(CASE WHEN v IS NOT NULL THEN w_enroll * v ELSE 0 END)`. -/
def aggNum (pairs : List (ℚ × Option ℚ)) : ℚ :=
  (pairs.map (fun q => match q.2 with | some v => q.1 * v | none => 0)).sum

/-- `SUM(CASE WHEN v IS NOT NULL THEN w_enroll ELSE 0 END)`. -/
def aggDenom (pairs : List (ℚ × Option ℚ)) : ℚ :=
  (pairs.map (fun q => match q.2 with | some _ => q.1 | none => 0)).sum

/-- `MAX(contract_year_total_enrollment)` over a group. -/
def groupTotalEnrollment (grp : List WeightRow) : Int :=
  (grp.map WeightRow.contract_year_total_enrollment).foldr max 0

/-- The final SELECT of the exposure CTE chain, for one contract-year group:
renormalized exposure when the matched weight is positive, NULL otherwise;
`out_of_scope_geography = CASE WHEN denom = 0 THEN 1 ELSE 0 END`. -/
def exposureRowOf (cid : String) (y : Int) (grp : List WeightRow)
    (joinVals : WeightRow → List (Option ℚ)) : ExposureRow :=
  let ps := exposurePairs joinVals grp
  let denom := aggDenom ps
  { contract_id := cid
    contract_year := y
    total_enrollment := groupTotalEnrollment grp
    exposure := if 0 < denom then some (aggNum ps / denom) else none
    coverage_weight_share := denom
    out_of_scope := decide (denom = 0) }

/-- One `contract_year_poverty_exposure_clean` row. -/
def povExposureRow (weights : List WeightRow) (pov : List PovertyRow)
    (cid : String) (y : Int) : ExposureRow :=
  exposureRowOf cid y (groupWeights weights cid y) (povJoinVals pov)

/-- One `contract_year_rural_exposure` row. -/
def ruralExposureRow (weights : List WeightRow) (rur : List RuralRow)
    (cid : String) (y : Int) : ExposureRow :=
  exposureRowOf cid y (groupWeights weights cid y) (ruralJoinVals rur)

/-- The distinct (contract_id, year) keys of the weight table (GROUP BY). -/
def contractYearKeys (weights : List WeightRow) : List (String × Int) :=
  (weights.map (fun w => (w.contract_id, w.year))).dedup

/-- The full `contract_year_poverty_exposure_clean` table. -/
def buildPovExposure (weights : List WeightRow) (pov : List PovertyRow) : List ExposureRow :=
  (contractYearKeys weights).map (fun k => povExposureRow weights pov k.1 k.2)

/-- The full `contract_year_rural_exposure` table. -/
def buildRuralExposure (weights : List WeightRow) (rur : List RuralRow) : List ExposureRow :=
  (contractYearKeys weights).map (fun k => ruralExposureRow weights rur k.1 k.2)

/-- The unique poverty value the join can pick up for a weight row, when the
poverty table has at most one row per (county, year) key. -/
def povLookup (pov : List PovertyRow) (w : WeightRow) : Option ℚ :=
  (pov.find? (povMatchPred w)).bind PovertyRow.pov_rate_all

/-- Sum of `w_enroll` over the group's rows whose county matched a
non-null poverty value (the spec's `matched_weight`). -/
def matchedWeight (pov : List PovertyRow) (grp : List WeightRow) : ℚ :=
  ((grp.filter (fun w => (povLookup pov w).isSome)).map WeightRow.w_enroll).sum

/-- Sum of `w_enroll * value` over the group's matched rows. -/
def matchedValueSum (pov : List PovertyRow) (grp : List WeightRow) : ℚ :=
  ((grp.filter (fun w => (povLookup pov w).isSome)).map
      (fun w => w.w_enroll * (povLookup pov w).getD 0)).sum

/-- One `county_hpsa_primarycare` row (designated counties; nullable score). -/
structure HpsaRow where
  county_fips : String
  hpsa_pc_score : Option ℚ
deriving DecidableEq, Repr

/-- One `contract_year_hpsa_exposure` row of `16_build_hpsa_exposure.py`. -/
structure HpsaExposureRow where
  contract_id : String
  contract_year : Int
  hpsa_exposure : ℚ
  hpsa_designated_weight_share : ℚ
  counties_total : ℕ
  counties_designated : ℕ
deriving DecidableEq, Repr

/-- The `w` CTE of `16_build_hpsa_exposure.py`:
`WHERE w_enroll IS NOT NULL AND w_enroll > 0`. -/
def hpsaWeightFilter (weights : List WeightRow) : List WeightRow :=
  weights.filter (fun w => decide (0 < w.w_enroll))

/-- The `h` CTE: HPSA rows with non-null score. -/
def hpsaFiltered (h : List HpsaRow) : List HpsaRow :=
  h.filter (fun r => r.hpsa_pc_score.isSome)

/-- The `j` CTE restricted to one weight row: LEFT JOIN on county,
`COALESCE(score, 0)` and the `is_designated` flag; triples
(w, hpsa_score, is_designated). -/
def hpsaJoinRows (h : List HpsaRow) (w : WeightRow) : List (ℚ × ℚ × Bool) :=
  let ms := (hpsaFiltered h).filter (fun r => decide (r.county_fips = w.county_fips))
  if ms.isEmpty then [(w.w_enroll, 0, false)]
  else ms.map (fun r => (w.w_enroll, r.hpsa_pc_score.getD 0, true))

/-- One `contract_year_hpsa_exposure` row: the raw weighted sum of scores
(non-designated counties contribute 0) with no renormalization, plus the
designated-weight-share diagnostic. -/
def hpsaExposureRow (weights : List WeightRow) (h : List HpsaRow)
    (cid : String) (y : Int) : HpsaExposureRow :=
  let j := (groupWeights (hpsaWeightFilter weights) cid y).flatMap (hpsaJoinRows h)
  { contract_id := cid
    contract_year := y
    hpsa_exposure := (j.map (fun t => t.1 * t.2.1)).sum
    hpsa_designated_weight_share := (j.map (fun t => if t.2.2 then t.1 else 0)).sum
    counties_total := j.length
    counties_designated := (j.filter (fun t => t.2.2)).length }

/-- The unique non-null HPSA score of a county, when the filtered HPSA table
has one row per county. -/
def hpsaScoreOf (h : List HpsaRow) (c : String) : Option ℚ :=
  ((hpsaFiltered h).find? (fun r => decide (r.county_fips = c))).bind HpsaRow.hpsa_pc_score

/-- The `w` CTE of the geo-concentration query of `14_model_full_stars.py`:
`WHERE w_enroll IS NOT NULL AND w_enroll > 0`, restricted to one
contract-year's weight values. -/
def posWeights (ws : List ℚ) : List ℚ :=
  ws.filter (fun w => decide (0 < w))

/-- `SUM(w*w)` — the Herfindahl-Hirschman index. -/
def geoHHI (ws : List ℚ) : ℚ :=
  ((posWeights ws).map (fun w => w * w)).sum

/-- `-SUM(w * LN(w))` — the entropy of the weight distribution. -/
noncomputable def geoEntropy (ws : List ℚ) : ℝ :=
  -(((posWeights ws).map (fun w : ℚ => (w : ℝ) * Real.log (w : ℝ))).sum)

/-- `MAX(w)` over the group (aggregate over positive weights). -/
def geoTop1 (ws : List ℚ) : ℚ :=
  (posWeights ws).foldr max 0

/-- Weights in the `ORDER BY w DESC` ranking order of the `ranked` CTE. -/
def sortDesc (ws : List ℚ) : List ℚ :=
  List.insertionSort (fun a b => b ≤ a) ws

/-- `SUM(CASE WHEN rn <= 5 THEN w ELSE 0 END)`: the 5 largest weights. -/
def geoTop5 (ws : List ℚ) : ℚ :=
  ((sortDesc (posWeights ws)).take 5).sum

/-- `COUNT(*)` over the group's positive weights. -/
def geoNCounties (ws : List ℚ) : ℕ :=
  (posWeights ws).length

/-- One `contract_year_model_frame_fullstars` row as pandas sees it after the
five LEFT JOINs of `14_model_full_stars.py`: every joined column is nullable. -/
structure ModelRow where
  contract_id : String
  contract_year : Int
  stars : Option ℚ
  poverty_exposure : Option ℚ
  rural_exposure : Option ℚ
  hpsa_exposure : Option ℚ
  hhi : Option ℚ
  entropy : Option ℚ
  top1_share : Option ℚ
  top5_share : Option ℚ
  n_counties : Option ℚ
  total_enrollment : Option ℚ
deriving DecidableEq, Repr

/-- Completeness in the `core` field list of `14_model_full_stars.py`
(stars, the three exposures, the five concentration metrics); note that
`total_enrollment` is not part of `core`. -/
def coreComplete (r : ModelRow) : Bool :=
  r.stars.isSome && r.poverty_exposure.isSome && r.rural_exposure.isSome &&
  r.hpsa_exposure.isSome && r.hhi.isSome && r.entropy.isSome &&
  r.top1_share.isSome && r.top5_share.isSome && r.n_counties.isSome

/-- `df = df.dropna(subset=core)` of `14_model_full_stars.py`. -/
def dropCore (frame : List ModelRow) : List ModelRow :=
  frame.filter coreComplete

/-- `df["total_enrollment"].fillna(1).clip(lower=1)`. -/
def imputeEnroll (e : Option ℚ) : ℚ :=
  max (e.getD 1) 1

/-- `df["log_enroll"] = np.log(df["total_enrollment"])` after imputation. -/
noncomputable def logEnroll (e : Option ℚ) : ℝ :=
  Real.log ((imputeEnroll e : ℚ) : ℝ)

/-- Predicted per-category probabilities of the fitted cumulative-odds model,
as consecutive differences of the cumulative probabilities
`F_k = cdf(cut_k - xb)` (with the conventions `F_0 = 0`, `F_K = 1`) — the
structure of the `ord_res.model.predict` vector consumed at line 413 of
`14_model_full_stars.py`. -/
def probsFromCumul (F : List ℚ) : List ℚ :=
  List.zipWith (fun a b => a - b) (F ++ [1]) (0 :: F)

/-- `expected_stars = probs @ levels` (line 414 of `14_model_full_stars.py`). -/
def expectedRating (probs levels : List ℚ) : ℚ :=
  (List.zipWith (fun p l => p * l) probs levels).sum

/-- `operational_residual = stars - expected_stars_structural` (line 417). -/
def residualOf (observed expected : ℚ) : ℚ :=
  observed - expected

/-- One `contract_year_stars` row of `08_build_near_threshold_analysis.py`. -/
structure StarsRow where
  contract_id : String
  contract_year : Int
  stars_rating : Option ℚ
deriving DecidableEq, Repr

/-- One `contract_year_analysis_base` row: stars LEFT JOIN poverty exposure;
all exposure-side columns are NULL when the join found no match. -/
structure BaseRow where
  contract_id : String
  contract_year : Int
  stars_rating : Option ℚ
  poverty_exposure : Option ℚ
  coverage_weight_share : Option ℚ
  out_of_scope_geography : Option Bool
  total_enrollment : Option Int
deriving DecidableEq, Repr

/-- `contract_year_analysis_base`: the LEFT JOIN of
`08_build_near_threshold_analysis.py`. -/
def baseJoin (stars : List StarsRow) (exps : List ExposureRow) : List BaseRow :=
  stars.flatMap (fun s =>
    let ms := exps.filter (fun p =>
      decide (p.contract_id = s.contract_id ∧ p.contract_year = s.contract_year))
    if ms.isEmpty then
      [{ contract_id := s.contract_id, contract_year := s.contract_year
         stars_rating := s.stars_rating, poverty_exposure := none
         coverage_weight_share := none, out_of_scope_geography := none
         total_enrollment := none }]
    else ms.map (fun p =>
      { contract_id := s.contract_id, contract_year := s.contract_year
        stars_rating := s.stars_rating, poverty_exposure := p.exposure
        coverage_weight_share := some p.coverage_weight_share
        out_of_scope_geography := some p.out_of_scope
        total_enrollment := some p.total_enrollment }))

/-- The WHERE clause of `contract_year_near_threshold`: non-null rating and
exposure, in-scope geography (`out_of_scope_geography = 0`; NULL fails the
SQL comparison), and rating within [3.5, 4.5]. -/
def ntKeep (b : BaseRow) : Bool :=
  match b.stars_rating, b.poverty_exposure, b.out_of_scope_geography with
  | some r, some _, some oos => !oos && decide ((7:ℚ)/2 ≤ r ∧ r ≤ 9/2)
  | _, _, _ => false

/-- The `threshold_band` CASE expression (NULL rating falls to `other`). -/
def bandOf (r : Option ℚ) : String :=
  match r with
  | some v => if (7:ℚ)/2 ≤ v ∧ v < 4 then "3.5-3.9"
              else if (4:ℚ) ≤ v ∧ v ≤ 9/2 then "4.0-4.5"
              else "other"
  | none => "other"

/-- The `above_4star` CASE expression (NULL rating gives 0). -/
def above4 (r : Option ℚ) : Bool :=
  match r with
  | some v => decide ((4:ℚ) ≤ v)
  | none => false

/-- One `contract_year_near_threshold` row: a base row that survived the
WHERE clause, with the two derived columns. -/
structure NTRow where
  base : BaseRow
  above_4star : Bool
  threshold_band : String
deriving DecidableEq, Repr

/-- The `contract_year_near_threshold` table of
`08_build_near_threshold_analysis.py`. -/
def nearThreshold (stars : List StarsRow) (exps : List ExposureRow) : List NTRow :=
  ((baseJoin stars exps).filter ntKeep).map (fun b =>
    { base := b, above_4star := above4 b.stars_rating, threshold_band := bandOf b.stars_rating })

/-- One input row of `09_threshold_stats.py` (the SELECT over
`contract_year_near_threshold` restricted to the two bands). -/
structure ThresholdRow where
  contract_id : String
  contract_year : Int
  threshold_band : String
  above_4star : Bool
  poverty_exposure : ℚ
  total_enrollment : ℚ
deriving DecidableEq, Repr

/-- `N_BOOT` of `09_threshold_stats.py`. -/
def N_BOOT : ℕ := 2000

/-- `RNG_SEED` of `09_threshold_stats.py`. -/
def RNG_SEED : ℕ := 42

/-- Deterministic model of the seeded `np.random.default_rng` stream (a
64-bit LCG step); the development relies only on the stream being a pure
function of the seed, which is also all `09_threshold_stats.py` relies on. -/
def rngNext (s : ℕ) : ℕ :=
  (6364136223846793005 * s + 1442695040888963407) % (2 ^ 64)

/-- Model of `rng.choice(ids, size=n, replace=True)`: n draws with
replacement, threading the generator state. -/
def sampleIds (ids : List String) : ℕ → ℕ → List String × ℕ
  | 0, s => ([], s)
  | n + 1, s =>
    let s' := rngNext s
    let pick := ids.getD (s' % ids.length) ""
    let rest := sampleIds ids n s'
    (pick :: rest.1, rest.2)

/-- pandas `merge(..., on="contract_id", how="left")` against the band's
rows: every sampled id expands to all of its rows (within-contract
multiplicity preserved). -/
def expandSample (d : List ThresholdRow) (samp : List String) : List ThresholdRow :=
  samp.flatMap (fun cid => d.filter (fun r => decide (r.contract_id = cid)))

/-- Column mean. -/
def meanQ (l : List ℚ) : ℚ :=
  l.sum / l.length

/-- `weighted_mean` of `09_threshold_stats.py` (the nan of the zero-weight
branch is modelled as 0; it is unreachable for positive enrollments). -/
def weightedMean (x w : List ℚ) : ℚ :=
  if w.sum = 0 then 0 else (List.zipWith (fun a b => a * b) x w).sum / w.sum

/-- One bootstrap replicate row of `bootstrap_diff`. -/
structure BootRow where
  contract_year : Int
  diff_unweighted : ℚ
  diff_enroll_weighted : ℚ
deriving DecidableEq, Repr

/-- The replicate loop of `bootstrap_diff` for one year: sample both bands,
re-join, and record the two band differences, threading the generator. -/
def bootYearDraws (yr : Int) (d_a d_b : List ThresholdRow) (ids_a ids_b : List String) :
    ℕ → ℕ → List BootRow × ℕ
  | 0, s => ([], s)
  | n + 1, s =>
    let ra := sampleIds ids_a ids_a.length s
    let rb := sampleIds ids_b ids_b.length ra.2
    let bs_a := expandSample d_a ra.1
    let bs_b := expandSample d_b rb.1
    let du := meanQ (bs_a.map ThresholdRow.poverty_exposure)
              - meanQ (bs_b.map ThresholdRow.poverty_exposure)
    let dw := weightedMean (bs_a.map ThresholdRow.poverty_exposure)
                (bs_a.map ThresholdRow.total_enrollment)
              - weightedMean (bs_b.map ThresholdRow.poverty_exposure)
                (bs_b.map ThresholdRow.total_enrollment)
    let rest := bootYearDraws yr d_a d_b ids_a ids_b n rb.2
    ({ contract_year := yr, diff_unweighted := du, diff_enroll_weighted := dw } :: rest.1,
     rest.2)

/-- First-occurrence deduplication (pandas `unique`). -/
def uniqueFirstAux {α : Type} [DecidableEq α] (seen : List α) : List α → List α
  | [] => []
  | a :: l => if a ∈ seen then uniqueFirstAux seen l else a :: uniqueFirstAux (a :: seen) l

/-- First-occurrence deduplication (pandas `unique`). -/
def uniqueFirst {α : Type} [DecidableEq α] (l : List α) : List α :=
  uniqueFirstAux [] l

/-- `sorted(df["contract_year"].unique())`. -/
def sortedYears (df : List ThresholdRow) : List Int :=
  List.insertionSort (fun a b => a ≤ b) (uniqueFirst (df.map ThresholdRow.contract_year))

/-- One band of one year. -/
def bandRows (df : List ThresholdRow) (yr : Int) (band : String) : List ThresholdRow :=
  df.filter (fun r => decide (r.contract_year = yr ∧ r.threshold_band = band))

/-- The year loop of `bootstrap_diff`: the small-sample rule skips a year
(fewer than 5 distinct contracts in either band) without consuming draws. -/
def bootstrapYears (df : List ThresholdRow) (nboot : ℕ) : List Int → ℕ → List BootRow
  | [], _ => []
  | yr :: rest, s =>
    let d_a := bandRows df yr "3.5-3.9"
    let d_b := bandRows df yr "4.0-4.5"
    let ids_a := uniqueFirst (d_a.map ThresholdRow.contract_id)
    let ids_b := uniqueFirst (d_b.map ThresholdRow.contract_id)
    if ids_a.length < 5 ∨ ids_b.length < 5 then bootstrapYears df nboot rest s
    else
      let drawn := bootYearDraws yr d_a d_b ids_a ids_b nboot s
      drawn.1 ++ bootstrapYears df nboot rest drawn.2

/-- `bootstrap_diff(df, n_boot, seed)` of `09_threshold_stats.py`. -/
def bootstrapDiff (df : List ThresholdRow) (nboot : ℕ) (seed : ℕ) : List BootRow :=
  bootstrapYears df nboot (sortedYears df) seed

/-- `np.nanpercentile` with the default linear interpolation, over exact
rationals. -/
def percentileQ (l : List ℚ) (p : ℚ) : ℚ :=
  let s := List.insertionSort (fun a b => a ≤ b) l
  if s.isEmpty then 0
  else
    let n := s.length
    let pos : ℚ := p * ((n : ℚ) - 1) / 100
    let i : ℕ := pos.floor.toNat
    let frac : ℚ := pos - (i : ℚ)
    let a := s.getD i 0
    let b := s.getD (min (i + 1) (n - 1)) 0
    a + frac * (b - a)

/-- `summarize_boot` for one year's replicate column: mean and the
2.5/50/97.5 empirical percentiles. -/
def summarizeYear (diffs : List ℚ) : ℚ × ℚ × ℚ × ℚ :=
  (meanQ diffs, percentileQ diffs (5/2), percentileQ diffs 50, percentileQ diffs (195/2))

/-- The replicate values of one year for a given column. -/
def yearDiffs (boot : List BootRow) (yr : Int) (col : BootRow → ℚ) : List ℚ :=
  (boot.filter (fun b => decide (b.contract_year = yr))).map col

/-- `summarize_boot`: per-year summary rows (groupby sorts years). -/
def summarizeBoot (boot : List BootRow) (col : BootRow → ℚ) :
    List (Int × ℚ × ℚ × ℚ × ℚ) :=
  (List.insertionSort (fun a b => a ≤ b)
      (uniqueFirst (boot.map BootRow.contract_year))).map
    (fun yr => (yr, summarizeYear (yearDiffs boot yr col)))

/-! ### General-purpose list lemmas -/

theorem filter_of_map {α β : Type} (f : α → β) (p : β → Bool) (l : List α) :
    (l.map f).filter p = (l.filter (fun x => p (f x))).map f := by
  induction l with
  | nil => rfl
  | cons a t ih => simp only [List.map_cons, List.filter_cons]; cases h : p (f a) <;> simp [h, ih]

theorem sum_map_div {α : Type} (l : List α) (g : α → ℚ) (c : ℚ) :
    (l.map (fun x => g x / c)).sum = (l.map g).sum / c := by
  induction l with
  | nil => simp
  | cons a t ih => simp [ih, add_div]

theorem sum_map_intCast {α : Type} (l : List α) (g : α → ℤ) :
    (l.map (fun x => ((g x : ℤ) : ℚ))).sum = (((l.map g).sum : ℤ) : ℚ) := by
  induction l with
  | nil => simp
  | cons a t ih => push_cast; simp [ih]

theorem nodup_key_filter {α β : Type} [DecidableEq β] (key : α → β) (l : List α)
    (hnd : (l.map key).Nodup) (k : β) :
    (l.filter (fun x => decide (key x = k)) = [] ∧
       l.find? (fun x => decide (key x = k)) = none) ∨
    (∃ a, l.filter (fun x => decide (key x = k)) = [a] ∧
       l.find? (fun x => decide (key x = k)) = some a) := by
  induction l with
  | nil => exact Or.inl ⟨rfl, rfl⟩
  | cons a t ih =>
    simp only [List.map_cons, List.nodup_cons] at hnd
    obtain ⟨hka, hndt⟩ := hnd
    by_cases hk : key a = k
    · refine Or.inr ⟨a, ?_, ?_⟩
      · rw [List.filter_cons_of_pos (by simp [hk])]
        have ht : t.filter (fun x => decide (key x = k)) = [] := by
          apply List.filter_eq_nil_iff.mpr
          intro x hx
          simp only [decide_eq_true_eq]
          intro hxk
          exact hka (by rw [hk, ← hxk]; exact List.mem_map_of_mem key hx)
        rw [ht]
      · exact List.find?_cons_of_pos _ (by simp [hk])
    · rcases ih hndt with ⟨hf, hfind⟩ | ⟨b, hf, hfind⟩
      · refine Or.inl ⟨?_, ?_⟩
        · rw [List.filter_cons_of_neg (by simp [hk]), hf]
        · rw [List.find?_cons_of_neg _ (by simp [hk]), hfind]
      · refine Or.inr ⟨b, ?_, ?_⟩
        · rw [List.filter_cons_of_neg (by simp [hk]), hf]
        · rw [List.find?_cons_of_neg _ (by simp [hk]), hfind]

theorem povJoinVals_eq_lookup (pov : List PovertyRow)
    (hnd : (pov.map (fun p => (p.county_fips, p.year))).Nodup) (w : WeightRow) :
    povJoinVals pov w = [povLookup pov w] := by
  have hpred : povMatchPred w =
      fun p : PovertyRow => decide ((p.county_fips, p.year) = (w.county_fips, w.year - 1)) := by
    funext p
    exact decide_eq_decide.mpr (by simp [Prod.ext_iff])
  rcases nodup_key_filter (fun p : PovertyRow => (p.county_fips, p.year)) pov hnd
      (w.county_fips, w.year - 1) with ⟨hf, hfind⟩ | ⟨a, hf, hfind⟩
  · simp only [povJoinVals, leftJoinVals, povLookup, hpred, hf, hfind]
    rfl
  · simp only [povJoinVals, leftJoinVals, povLookup, hpred, hf, hfind]
    rfl

theorem exposurePairs_of_unique (pov : List PovertyRow)
    (hnd : (pov.map (fun p => (p.county_fips, p.year))).Nodup) (grp : List WeightRow) :
    exposurePairs (povJoinVals pov) grp =
      grp.map (fun w => (w.w_enroll, povLookup pov w)) := by
  induction grp with
  | nil => rfl
  | cons a t ih =>
    simp only [exposurePairs, List.flatMap_cons, List.map_cons] at ih ⊢
    rw [povJoinVals_eq_lookup pov hnd a, ih]
    rfl

theorem aggDenom_map (grp : List WeightRow) (f : WeightRow → Option ℚ) :
    aggDenom (grp.map (fun w => (w.w_enroll, f w))) =
      ((grp.filter (fun w => (f w).isSome)).map WeightRow.w_enroll).sum := by
  induction grp with
  | nil => rfl
  | cons a t ih =>
    simp only [List.map_cons, aggDenom, List.sum_cons, List.filter_cons, List.map_map,
      Function.comp_def] at ih ⊢
    cases hfa : f a <;> simp [hfa, ih]

theorem aggNum_map (grp : List WeightRow) (f : WeightRow → Option ℚ) :
    aggNum (grp.map (fun w => (w.w_enroll, f w))) =
      ((grp.filter (fun w => (f w).isSome)).map
          (fun w => w.w_enroll * (f w).getD 0)).sum := by
  induction grp with
  | nil => rfl
  | cons a t ih =>
    simp only [List.map_cons, aggNum, List.sum_cons, List.filter_cons, List.map_map,
      Function.comp_def] at ih ⊢
    cases hfa : f a <;> simp [hfa, ih]

theorem aggDenom_nonneg (ps : List (ℚ × Option ℚ)) (h : ∀ q ∈ ps, 0 ≤ q.1) :
    0 ≤ aggDenom ps := by
  apply List.sum_nonneg
  intro x hx
  simp only [List.mem_map] at hx
  obtain ⟨q, hq, rfl⟩ := hx
  cases hq2 : q.2 <;> simp [hq2, h q hq]

theorem exposurePairs_fst_nonneg (jv : WeightRow → List (Option ℚ)) (grp : List WeightRow)
    (h : ∀ w ∈ grp, 0 ≤ w.w_enroll) :
    ∀ q ∈ exposurePairs jv grp, 0 ≤ q.1 := by
  intro q hq
  simp only [exposurePairs, List.mem_flatMap, List.mem_map] at hq
  obtain ⟨w, hw, v, -, rfl⟩ := hq
  exact h w hw

theorem exposureRowOf_invariant (cid : String) (y : Int) (grp : List WeightRow)
    (jv : WeightRow → List (Option ℚ)) (h : ∀ w ∈ grp, 0 ≤ w.w_enroll) :
    ((exposureRowOf cid y grp jv).out_of_scope = true ↔
       (exposureRowOf cid y grp jv).coverage_weight_share = 0) ∧
    ((exposureRowOf cid y grp jv).coverage_weight_share = 0 ↔
       (exposureRowOf cid y grp jv).exposure = none) := by
  have hnn : 0 ≤ aggDenom (exposurePairs jv grp) :=
    aggDenom_nonneg _ (exposurePairs_fst_nonneg jv grp h)
  simp only [exposureRowOf]
  constructor
  · simp
  · constructor
    · intro h0
      rw [if_neg (by rw [h0]; exact lt_irrefl 0)]
    · intro hnone
      by_contra hne
      have hpos : 0 < aggDenom (exposurePairs jv grp) := lt_of_le_of_ne hnn (Ne.symm hne)
      rw [if_pos hpos] at hnone
      exact Option.some_ne_none _ hnone

/-! ### C1: weight construction -/

/-- C1: every `contract_county_weights` row has positive enrollment (null or
non-positive rows never appear), its weight is its enrollment over the sum of
enrollment across the group's retained rows, and for every contract-year whose
retained total is positive, the group's weights sum to exactly 1 (hence within
1e-6 of 1.0). -/
theorem buildWeights_spec (rows : List EnrollmentRow) :
    (∀ w ∈ buildWeights rows,
       0 < w.enrollment ∧
       w.contract_year_total_enrollment = contractYearTotal rows w.contract_id w.year ∧
       w.w_enroll = (w.enrollment : ℚ) / (contractYearTotal rows w.contract_id w.year : ℚ)) ∧
    (∀ cid y, 0 < contractYearTotal rows cid y →
       groupWeightSum (buildWeights rows) cid y = 1 ∧
       |groupWeightSum (buildWeights rows) cid y - 1| ≤ 1 / 1000000) := by
  constructor
  · intro w hw
    simp only [buildWeights, List.mem_map] at hw
    obtain ⟨r, hr, rfl⟩ := hw
    simp only [retained, List.mem_filter] at hr
    have hpos : 0 < enrollVal r := by
      rcases hr with ⟨-, hk⟩
      unfold enrollmentKept at hk
      cases he : r.enrollment with
      | none => rw [he] at hk; exact absurd hk (by simp)
      | some e =>
        rw [he] at hk
        simp only [decide_eq_true_eq] at hk
        simpa [enrollVal, he] using hk
    exact ⟨hpos, rfl, rfl⟩
  · intro cid y hT
    have key : groupWeightSum (buildWeights rows) cid y = 1 := by
      set G := (retained rows).filter (fun r => decide (r.contract_id = cid ∧ r.year = y)) with hG
      have hfil : groupWeights (buildWeights rows) cid y =
          G.map (fun r =>
            ({ contract_id := r.contract_id
               year := r.year
               county_fips := r.county_fips
               enrollment := enrollVal r
               contract_year_total_enrollment := contractYearTotal rows r.contract_id r.year
               w_enroll := (enrollVal r : ℚ) / (contractYearTotal rows r.contract_id r.year : ℚ) } : WeightRow)) := by
        unfold groupWeights buildWeights
        rw [filter_of_map]
      unfold groupWeightSum
      rw [hfil, List.map_map]
      have hcong : G.map (fun r => WeightRow.w_enroll
            ({ contract_id := r.contract_id
               year := r.year
               county_fips := r.county_fips
               enrollment := enrollVal r
               contract_year_total_enrollment := contractYearTotal rows r.contract_id r.year
               w_enroll := (enrollVal r : ℚ) / (contractYearTotal rows r.contract_id r.year : ℚ) } : WeightRow)) =
          G.map (fun r => (enrollVal r : ℚ) / (contractYearTotal rows cid y : ℚ)) := by
        apply List.map_congr_left
        intro r hrG
        simp only [hG, List.mem_filter, decide_eq_true_eq] at hrG
        obtain ⟨-, hc, hy⟩ := hrG
        simp [hc, hy]
      simp only [Function.comp_def]
      rw [hcong, sum_map_div, sum_map_intCast]
      have hTeq : contractYearTotal rows cid y = (G.map enrollVal).sum := by rfl
      rw [← hTeq]
      have hne : ((contractYearTotal rows cid y : ℤ) : ℚ) ≠ 0 := by
        exact_mod_cast (ne_of_gt (by exact_mod_cast hT))
      exact div_self hne
    exact ⟨key, by rw [key]; norm_num⟩

/-- Concrete enrollment rows exercising `buildWeights_spec`: contract A,
year 2024, counties 06001 (80 enrollees) and 06003 (20 enrollees). -/
def demoEnrollment : List EnrollmentRow :=
  [⟨"A", 2024, "06001", some 80⟩, ⟨"A", 2024, "06003", some 20⟩]

/-- Witness for `buildWeights_spec` at a concrete input. -/
theorem buildWeights_spec_witness :
    0 < contractYearTotal demoEnrollment "A" 2024 ∧
    groupWeightSum (buildWeights demoEnrollment) "A" 2024 = 1 :=
  ⟨by decide, ((buildWeights_spec demoEnrollment).2 "A" 2024 (by decide)).1⟩

/-! ### C2: lagged, renormalized poverty exposure -/

/-- C2: the poverty join matches contract year Y to poverty year Y−1, and
(when the poverty table has one row per (county, year) key) the exposure is the
matched weighted sum renormalized by the matched weight when that weight is
positive, is null when the matched weight is zero, and
`coverage_weight_share` is the matched weight. -/
theorem poverty_exposure_spec (weights : List WeightRow) (pov : List PovertyRow)
    (cid : String) (y : Int)
    (hnd : (pov.map (fun p => (p.county_fips, p.year))).Nodup) :
    (∀ w p, povMatchPred w p = true ↔ (p.county_fips = w.county_fips ∧ p.year = w.year - 1)) ∧
    (povExposureRow weights pov cid y).coverage_weight_share
        = matchedWeight pov (groupWeights weights cid y) ∧
    (0 < matchedWeight pov (groupWeights weights cid y) →
       (povExposureRow weights pov cid y).exposure
         = some (matchedValueSum pov (groupWeights weights cid y)
                  / matchedWeight pov (groupWeights weights cid y))) ∧
    (matchedWeight pov (groupWeights weights cid y) = 0 →
       (povExposureRow weights pov cid y).exposure = none) := by
  have hpairs : exposurePairs (povJoinVals pov) (groupWeights weights cid y) =
      (groupWeights weights cid y).map (fun w => (w.w_enroll, povLookup pov w)) :=
    exposurePairs_of_unique pov hnd _
  have hden : aggDenom (exposurePairs (povJoinVals pov) (groupWeights weights cid y)) =
      matchedWeight pov (groupWeights weights cid y) := by
    rw [hpairs, aggDenom_map]; rfl
  have hnum : aggNum (exposurePairs (povJoinVals pov) (groupWeights weights cid y)) =
      matchedValueSum pov (groupWeights weights cid y) := by
    rw [hpairs, aggNum_map]; rfl
  refine ⟨?_, ?_, ?_, ?_⟩
  · intro w p
    simp [povMatchPred]
  · simp only [povExposureRow, exposureRowOf]
    exact hden
  · intro hpos
    simp only [povExposureRow, exposureRowOf]
    rw [if_pos (by rw [hden]; exact hpos), hden, hnum]
  · intro h0
    simp only [povExposureRow, exposureRowOf]
    rw [if_neg (by rw [hden, h0]; exact lt_irrefl 0)]

/-- Concrete poverty table for the spec's end-to-end scenario: county 06001
has a 2023 poverty rate of 0.10; county 06003 has no row. -/
def demoPoverty : List PovertyRow :=
  [⟨2023, "06001", some (1/10)⟩]

/-- Witness for `poverty_exposure_spec`: weights {0.8, 0.2} with only the
0.8-weight county matched at value 0.10 yield exposure 0.10 and
coverage_weight_share 0.8. -/
theorem poverty_exposure_spec_witness :
    (povExposureRow (buildWeights demoEnrollment) demoPoverty "A" 2024).exposure = some (1/10) ∧
    (povExposureRow (buildWeights demoEnrollment) demoPoverty "A" 2024).coverage_weight_share
      = 4/5 := by
  have h := poverty_exposure_spec (buildWeights demoEnrollment) demoPoverty "A" 2024 (by decide)
  constructor
  · rw [h.2.2.1 (by
      norm_num +decide [matchedWeight, povLookup, povMatchPred, groupWeights, buildWeights,
        demoEnrollment, demoPoverty, retained, enrollmentKept, enrollVal, contractYearTotal])]
    norm_num +decide [matchedWeight, matchedValueSum, povLookup, povMatchPred, groupWeights,
      buildWeights, demoEnrollment, demoPoverty, retained, enrollmentKept, enrollVal,
      contractYearTotal]
  · rw [h.2.1]
    norm_num +decide [matchedWeight, povLookup, povMatchPred, groupWeights, buildWeights,
      demoEnrollment, demoPoverty, retained, enrollmentKept, enrollVal, contractYearTotal]

/-! ### C3: coverage invariant -/

/-- C3: in every row of the renormalized exposure tables (poverty and rural),
given nonnegative input weights, the out-of-scope flag, zero coverage weight
share, and null exposure are equivalent: a coverage failure never produces a
zero-valued exposure. -/
theorem coverage_invariant (weights : List WeightRow) (pov : List PovertyRow)
    (rur : List RuralRow) (hw : ∀ w ∈ weights, 0 ≤ w.w_enroll) :
    (∀ r ∈ buildPovExposure weights pov,
       (r.out_of_scope = true ↔ r.coverage_weight_share = 0) ∧
       (r.coverage_weight_share = 0 ↔ r.exposure = none)) ∧
    (∀ r ∈ buildRuralExposure weights rur,
       (r.out_of_scope = true ↔ r.coverage_weight_share = 0) ∧
       (r.coverage_weight_share = 0 ↔ r.exposure = none)) := by
  have hgrp : ∀ cid y, ∀ w ∈ groupWeights weights cid y, 0 ≤ w.w_enroll := by
    intro cid y w hwg
    exact hw w (List.mem_filter.mp hwg).1
  constructor
  · intro r hr
    simp only [buildPovExposure, List.mem_map] at hr
    obtain ⟨k, -, rfl⟩ := hr
    exact exposureRowOf_invariant k.1 k.2 _ _ (hgrp k.1 k.2)
  · intro r hr
    simp only [buildRuralExposure, List.mem_map] at hr
    obtain ⟨k, -, rfl⟩ := hr
    exact exposureRowOf_invariant k.1 k.2 _ _ (hgrp k.1 k.2)

/-- Witness for `coverage_invariant`: the demo weights against the demo
poverty table and an empty rural table (the latter gives an out-of-scope
contract-year). -/
theorem coverage_invariant_witness :
    ((povExposureRow (buildWeights demoEnrollment) demoPoverty "A" 2024).out_of_scope = true ↔
       (povExposureRow (buildWeights demoEnrollment) demoPoverty "A" 2024).coverage_weight_share
         = 0) ∧
    ((ruralExposureRow (buildWeights demoEnrollment) [] "A" 2024).coverage_weight_share = 0 ↔
       (ruralExposureRow (buildWeights demoEnrollment) [] "A" 2024).exposure = none) := by
  have h := coverage_invariant (buildWeights demoEnrollment) demoPoverty []
    (by norm_num +decide [buildWeights, demoEnrollment, retained, enrollmentKept, enrollVal,
      contractYearTotal])
  exact ⟨(h.1 _ (List.mem_map.mpr ⟨("A", 2024), by decide, rfl⟩)).1,
         (h.2 _ (List.mem_map.mpr ⟨("A", 2024), by decide, rfl⟩)).2⟩

/-! ### C4: HPSA (shortage) exposure -/

theorem sum_ite_filter {α : Type} (l : List α) (q : α → Bool) (g : α → ℚ) :
    (l.map (fun x => if q x then g x else 0)).sum = ((l.filter q).map g).sum := by
  induction l with
  | nil => rfl
  | cons a t ih =>
    simp only [List.map_cons, List.sum_cons, List.filter_cons]
    cases hqa : q a <;> simp [hqa, ih]

theorem flatMap_eq_map {α β : Type} (l : List α) (f : α → List β) (g : α → β)
    (h : ∀ x ∈ l, f x = [g x]) : l.flatMap f = l.map g := by
  induction l with
  | nil => rfl
  | cons a t ih =>
    simp only [List.flatMap_cons, List.map_cons]
    rw [h a (List.mem_cons_self a t), ih (fun x hx => h x (List.mem_cons_of_mem a hx))]
    rfl

theorem hpsaJoinRows_eq (h : List HpsaRow)
    (hnd : ((hpsaFiltered h).map HpsaRow.county_fips).Nodup) (w : WeightRow) :
    hpsaJoinRows h w =
      [(w.w_enroll, (hpsaScoreOf h w.county_fips).getD 0,
        (hpsaScoreOf h w.county_fips).isSome)] := by
  rcases nodup_key_filter HpsaRow.county_fips (hpsaFiltered h) hnd w.county_fips with
    ⟨hf, hfind⟩ | ⟨a, hf, hfind⟩
  · simp only [hpsaJoinRows, hpsaScoreOf, hf, hfind]
    rfl
  · have ha : a ∈ (hpsaFiltered h).filter (fun r => decide (r.county_fips = w.county_fips)) := by
      rw [hf]; exact List.mem_singleton_self a
    have haf : a ∈ hpsaFiltered h := (List.mem_filter.mp ha).1
    have hsome : a.hpsa_pc_score.isSome := by
      simp only [hpsaFiltered, List.mem_filter] at haf
      exact haf.2
    obtain ⟨v, hv⟩ := Option.isSome_iff_exists.mp hsome
    simp only [hpsaJoinRows, hpsaScoreOf, hf, hfind, hv]
    simp [Option.getD, hv]

/-- C4: the HPSA exposure is the raw weighted sum of `w_enroll * score` over
all of the contract's counties, with non-designated counties contributing an
explicit score of 0 and no renormalization by matched weight, while the
designated-weight-share diagnostic is the sum of `w_enroll` over designated
counties. Stated for an HPSA table with one (non-null) row per county. -/
theorem hpsa_exposure_spec (weights : List WeightRow) (h : List HpsaRow)
    (cid : String) (y : Int)
    (hnd : ((hpsaFiltered h).map HpsaRow.county_fips).Nodup) :
    (hpsaExposureRow weights h cid y).hpsa_exposure
      = ((groupWeights (hpsaWeightFilter weights) cid y).map
          (fun w => w.w_enroll * (hpsaScoreOf h w.county_fips).getD 0)).sum ∧
    (hpsaExposureRow weights h cid y).hpsa_designated_weight_share
      = (((groupWeights (hpsaWeightFilter weights) cid y).filter
            (fun w => (hpsaScoreOf h w.county_fips).isSome)).map WeightRow.w_enroll).sum := by
  have hj : (groupWeights (hpsaWeightFilter weights) cid y).flatMap (hpsaJoinRows h) =
      (groupWeights (hpsaWeightFilter weights) cid y).map
        (fun w => (w.w_enroll, (hpsaScoreOf h w.county_fips).getD 0,
          (hpsaScoreOf h w.county_fips).isSome)) :=
    flatMap_eq_map _ _ _ (fun w _ => hpsaJoinRows_eq h hnd w)
  constructor
  · simp only [hpsaExposureRow, hj, List.map_map, Function.comp_def]
  · simp only [hpsaExposureRow, hj, List.map_map, Function.comp_def]
    exact sum_ite_filter _ (fun w => (hpsaScoreOf h w.county_fips).isSome) WeightRow.w_enroll

/-- Concrete HPSA table: county 06001 designated with score 10, county
06003 not designated. -/
def demoHpsa : List HpsaRow :=
  [⟨"06001", some 10⟩]

/-- Witness for `hpsa_exposure_spec`: weights {0.8, 0.2} with only the
0.8-weight county designated at score 10 yield exposure 8 (raw weighted sum,
no renormalization) and designated weight share 0.8. -/
theorem hpsa_exposure_spec_witness :
    (hpsaExposureRow (buildWeights demoEnrollment) demoHpsa "A" 2024).hpsa_exposure = 8 ∧
    (hpsaExposureRow (buildWeights demoEnrollment) demoHpsa "A" 2024).hpsa_designated_weight_share
      = 4/5 := by
  have h := hpsa_exposure_spec (buildWeights demoEnrollment) demoHpsa "A" 2024 (by decide)
  constructor
  · rw [h.1]
    norm_num +decide [groupWeights, hpsaWeightFilter, buildWeights, demoEnrollment, retained,
      enrollmentKept, enrollVal, contractYearTotal, hpsaScoreOf, hpsaFiltered, demoHpsa]
  · rw [h.2]
    norm_num +decide [groupWeights, hpsaWeightFilter, buildWeights, demoEnrollment, retained,
      enrollmentKept, enrollVal, contractYearTotal, hpsaScoreOf, hpsaFiltered, demoHpsa]

/-! ### C7: geographic concentration metrics -/

theorem sum_sq_le_sq_sum (l : List ℚ) (h : ∀ x ∈ l, 0 ≤ x) :
    (l.map (fun w => w * w)).sum ≤ l.sum * l.sum := by
  induction l with
  | nil => simp
  | cons a t ih =>
    simp only [List.map_cons, List.sum_cons]
    have ha : 0 ≤ a := h a (List.mem_cons_self a t)
    have ht : 0 ≤ t.sum := List.sum_nonneg (fun x hx => h x (List.mem_cons_of_mem a hx))
    have iht := ih (fun x hx => h x (List.mem_cons_of_mem a hx))
    nlinarith [iht, ha, ht]

theorem foldr_max_le (l : List ℚ) (c : ℚ) (hc : 0 ≤ c) (h : ∀ x ∈ l, x ≤ c) :
    l.foldr max 0 ≤ c := by
  induction l with
  | nil => simpa
  | cons a t ih =>
    simp only [List.foldr_cons]
    exact max_le (h a (List.mem_cons_self a t)) (ih (fun x hx => h x (List.mem_cons_of_mem a hx)))

theorem sum_nonpos_list (l : List ℝ) (h : ∀ x ∈ l, x ≤ 0) : l.sum ≤ 0 := by
  induction l with
  | nil => simp
  | cons a t ih =>
    simp only [List.sum_cons]
    have h1 := h a (List.mem_cons_self a t)
    have h2 := ih (fun x hx => h x (List.mem_cons_of_mem a hx))
    linarith

/-- C7: for a contract-year weight distribution with positive weights summing
to 1, HHI lies in (0,1], entropy is nonnegative, top1_share ≤ top5_share ≤ 1,
n_counties counts the positive-weight counties, and the uniform distribution
over n counties has HHI exactly 1/n. -/
theorem geo_concentration_spec (ws : List ℚ) (hpos : ∀ w ∈ ws, 0 < w)
    (hsum : ws.sum = 1) :
    0 < geoHHI ws ∧ geoHHI ws ≤ 1 ∧ 0 ≤ geoEntropy ws ∧
    geoTop1 ws ≤ geoTop5 ws ∧ geoTop5 ws ≤ 1 ∧
    geoNCounties ws = ws.length ∧
    (∀ n : ℕ, 0 < n → geoHHI (List.replicate n ((n : ℚ)⁻¹)) = (n : ℚ)⁻¹) := by
  have hfix : posWeights ws = ws :=
    List.filter_eq_self.mpr (fun a ha => decide_eq_true (hpos a ha))
  have hnn : ∀ w ∈ ws, 0 ≤ w := fun w hw => le_of_lt (hpos w hw)
  have hne : ws ≠ [] := by
    intro hnil
    rw [hnil] at hsum
    simp at hsum
  refine ⟨?_, ?_, ?_, ?_, ?_, ?_, ?_⟩
  · -- 0 < HHI
    unfold geoHHI
    rw [hfix]
    cases ws with
    | nil => exact absurd rfl hne
    | cons a t =>
      simp only [List.map_cons, List.sum_cons]
      have ha : 0 < a := hpos a (List.mem_cons_self a t)
      have ht : 0 ≤ (t.map (fun w => w * w)).sum := by
        apply List.sum_nonneg
        intro x hx
        simp only [List.mem_map] at hx
        obtain ⟨w, -, rfl⟩ := hx
        exact mul_self_nonneg w
      nlinarith
  · -- HHI ≤ 1
    unfold geoHHI
    rw [hfix]
    calc (ws.map (fun w => w * w)).sum ≤ ws.sum * ws.sum := sum_sq_le_sq_sum ws hnn
    _ = 1 := by rw [hsum]; norm_num
  · -- 0 ≤ entropy
    unfold geoEntropy
    rw [hfix]
    rw [neg_nonneg]
    apply sum_nonpos_list
    intro x hx
    obtain ⟨w, hw, rfl⟩ := List.mem_map.mp hx
    have hw0 : (0:ℝ) ≤ (w:ℚ) := by exact_mod_cast hnn w hw
    have hw1 : ((w:ℚ):ℝ) ≤ 1 := by
      have : w ≤ ws.sum := List.single_le_sum hnn w hw
      rw [hsum] at this
      exact_mod_cast this
    have hlog : Real.log (w:ℚ) ≤ 0 := Real.log_nonpos hw0 hw1
    have := mul_nonneg hw0 (neg_nonneg.mpr hlog)
    linarith
  · -- top1 ≤ top5
    unfold geoTop1 geoTop5
    rw [hfix]
    have hperm : List.Perm (sortDesc ws) ws := List.perm_insertionSort _ ws
    cases hs : sortDesc ws with
    | nil =>
      exfalso
      rw [hs] at hperm
      exact hne (hperm.symm.eq_nil)
    | cons b u =>
      have hsorted : (b :: u).Sorted (fun x y => y ≤ x) := by
        rw [← hs]
        exact List.sorted_insertionSort _ ws
      have hmemws : ∀ x ∈ b :: u, x ∈ ws := by
        intro x hx
        rw [← hs] at hx
        exact hperm.mem_iff.mp hx
      have hb0 : 0 ≤ b := le_of_lt (hpos b (hmemws b (List.mem_cons_self b u)))
      have hmax : ∀ x ∈ ws, x ≤ b := by
        intro x hx
        have hx' : x ∈ b :: u := by
          rw [← hs]
          exact ((List.perm_insertionSort _ ws).mem_iff).mpr hx
        rcases List.mem_cons.mp hx' with rfl | hxu
        · exact le_refl x
        · exact (List.sorted_cons.mp hsorted).1 x hxu
      have htop1 : ws.foldr max 0 ≤ b := foldr_max_le ws b hb0 hmax
      have htail : 0 ≤ (u.take 4).sum := by
        apply List.sum_nonneg
        intro x hx
        exact le_of_lt (hpos x (hmemws x (List.mem_cons_of_mem b (List.take_subset 4 u hx))))
      rw [show (5:ℕ) = 4+1 from rfl, List.take_succ_cons, List.sum_cons]
      linarith
  · -- top5 ≤ 1
    unfold geoTop5
    rw [hfix]
    have hperm : List.Perm (sortDesc ws) ws := List.perm_insertionSort _ ws
    have hdrop : 0 ≤ ((sortDesc ws).drop 5).sum := by
      apply List.sum_nonneg
      intro x hx
      exact le_of_lt (hpos x (hperm.mem_iff.mp (List.drop_subset 5 _ hx)))
    have hsplit : ((sortDesc ws).take 5).sum + ((sortDesc ws).drop 5).sum = ws.sum := by
      rw [← List.sum_append, List.take_append_drop, hperm.sum_eq]
    rw [hsum] at hsplit
    linarith
  · -- n_counties
    unfold geoNCounties
    rw [hfix]
  · -- uniform HHI
    intro n hn
    have hnq : (0:ℚ) < (n:ℚ) := by exact_mod_cast hn
    have hinv : (0:ℚ) < (n:ℚ)⁻¹ := inv_pos.mpr hnq
    have hfix2 : posWeights (List.replicate n ((n : ℚ)⁻¹)) = List.replicate n ((n : ℚ)⁻¹) := by
      apply List.filter_eq_self.mpr
      intro a ha
      rw [List.eq_of_mem_replicate ha]
      exact decide_eq_true hinv
    unfold geoHHI
    rw [hfix2, List.map_replicate, List.sum_replicate, nsmul_eq_mul]
    field_simp

/-- Witness for `geo_concentration_spec`: the two-county uniform weight
distribution {1/2, 1/2}. -/
theorem geo_concentration_spec_witness :
    0 < geoHHI [1/2, 1/2] ∧ geoHHI [1/2, 1/2] ≤ 1 ∧ 0 ≤ geoEntropy [1/2, 1/2] ∧
    geoTop1 [1/2, 1/2] ≤ geoTop5 [1/2, 1/2] ∧ geoTop5 [1/2, 1/2] ≤ 1 ∧
    geoNCounties [1/2, 1/2] = 2 ∧
    (∀ n : ℕ, 0 < n → geoHHI (List.replicate n ((n : ℚ)⁻¹)) = (n : ℚ)⁻¹) :=
  geo_concentration_spec [1/2, 1/2] (by norm_num) (by norm_num)

/-! ### C5: decomposition identity -/

theorem zip_sub_sum (xs : List ℚ) : ∀ a c : ℚ,
    (List.zipWith (fun x y => x - y) (xs ++ [c]) (a :: xs)).sum = c - a := by
  induction xs with
  | nil => intro a c; simp
  | cons x t ih =>
    intro a c
    simp only [List.cons_append, List.zipWith_cons_cons, List.sum_cons, ih]
    ring

theorem zip_sub_nonneg (xs : List ℚ) : ∀ a c : ℚ,
    List.Chain' (fun x y => x ≤ y) (a :: (xs ++ [c])) →
    ∀ q ∈ List.zipWith (fun x y => x - y) (xs ++ [c]) (a :: xs), 0 ≤ q := by
  induction xs with
  | nil =>
    intro a c h q hq
    simp only [List.nil_append, List.zipWith_cons_cons, List.zipWith_nil_right,
      List.mem_singleton] at hq
    subst hq
    have hac : a ≤ c := (List.chain'_cons.mp h).1
    linarith
  | cons x t ih =>
    intro a c h q hq
    simp only [List.cons_append, List.zipWith_cons_cons, List.mem_cons] at hq h
    obtain ⟨hax, h'⟩ := List.chain'_cons.mp h
    rcases hq with rfl | hq
    · linarith
    · exact ih x c h' q hq

theorem zip_mul_sum_le (ps : List ℚ) (hi : ℚ) : ∀ ls : List ℚ, ps.length = ls.length →
    (∀ p ∈ ps, 0 ≤ p) → (∀ l ∈ ls, l ≤ hi) →
    (List.zipWith (fun p l => p * l) ps ls).sum ≤ hi * ps.sum := by
  induction ps with
  | nil => intro ls _ _ _; simp
  | cons p pt ih =>
    intro ls hlen hp hl
    cases ls with
    | nil => simp at hlen
    | cons l lt =>
      simp only [List.zipWith_cons_cons, List.sum_cons]
      have h1 : p * l ≤ p * hi :=
        mul_le_mul_of_nonneg_left (hl l (List.mem_cons_self l lt)) (hp p (List.mem_cons_self p pt))
      have h2 := ih lt (by simpa using hlen) (fun x hx => hp x (List.mem_cons_of_mem p hx))
        (fun x hx => hl x (List.mem_cons_of_mem l hx))
      calc p * l + (List.zipWith (fun p l => p * l) pt lt).sum
          ≤ p * hi + hi * pt.sum := by linarith
        _ = hi * (p :: pt).sum := by simp [List.sum_cons]; ring

theorem zip_mul_sum_ge (ps : List ℚ) (lo : ℚ) : ∀ ls : List ℚ, ps.length = ls.length →
    (∀ p ∈ ps, 0 ≤ p) → (∀ l ∈ ls, lo ≤ l) →
    lo * ps.sum ≤ (List.zipWith (fun p l => p * l) ps ls).sum := by
  induction ps with
  | nil => intro ls _ _ _; simp
  | cons p pt ih =>
    intro ls hlen hp hl
    cases ls with
    | nil => simp at hlen
    | cons l lt =>
      simp only [List.zipWith_cons_cons, List.sum_cons]
      have h1 : p * lo ≤ p * l :=
        mul_le_mul_of_nonneg_left (hl l (List.mem_cons_self l lt)) (hp p (List.mem_cons_self p pt))
      have h2 := ih lt (by simpa using hlen) (fun x hx => hp x (List.mem_cons_of_mem p hx))
        (fun x hx => hl x (List.mem_cons_of_mem l hx))
      calc lo * (p :: pt).sum = p * lo + lo * pt.sum := by simp [List.sum_cons]; ring
        _ ≤ p * l + (List.zipWith (fun p l => p * l) pt lt).sum := by linarith

/-- C5: for every modeled row, the fitted per-level probability vector (the
consecutive differences of monotone cumulative probabilities in [0,1]) sums
to exactly 1 (hence within 1e-6), expected_rating — the probability-weighted
expectation over the level values, not the arg-max class — lies within
[min level, max level] of the observed level set, and the residual is
observed minus expected. -/
theorem decomposition_identity (F levels : List ℚ) (obs lo hi : ℚ)
    (hchain : List.Chain' (fun x y => x ≤ y) (0 :: (F ++ [1])))
    (hlen : levels.length = F.length + 1)
    (hbound : ∀ l ∈ levels, lo ≤ l ∧ l ≤ hi) :
    (probsFromCumul F).sum = 1 ∧
    |(probsFromCumul F).sum - 1| ≤ 1/1000000 ∧
    lo ≤ expectedRating (probsFromCumul F) levels ∧
    expectedRating (probsFromCumul F) levels ≤ hi ∧
    residualOf obs (expectedRating (probsFromCumul F) levels)
      = obs - expectedRating (probsFromCumul F) levels := by
  have hsum : (probsFromCumul F).sum = 1 := by
    unfold probsFromCumul
    rw [zip_sub_sum]
    norm_num
  have hnn : ∀ q ∈ probsFromCumul F, 0 ≤ q := zip_sub_nonneg F 0 1 hchain
  have hplen : (probsFromCumul F).length = F.length + 1 := by
    unfold probsFromCumul
    rw [List.length_zipWith]
    simp
  refine ⟨hsum, by rw [hsum]; norm_num, ?_, ?_, rfl⟩
  · have h := zip_mul_sum_ge (probsFromCumul F) lo levels (by rw [hplen, hlen]) hnn
      (fun l hl => (hbound l hl).1)
    rw [hsum, mul_one] at h
    exact h
  · have h := zip_mul_sum_le (probsFromCumul F) hi levels (by rw [hplen, hlen]) hnn
      (fun l hl => (hbound l hl).2)
    rw [hsum, mul_one] at h
    exact h

/-- Witness for `decomposition_identity`: cumulative probabilities
[1/4, 1/2] over the level set [3, 4, 5] (probabilities [1/4, 1/4, 1/2]). -/
theorem decomposition_identity_witness :
    (probsFromCumul [1/4, 1/2]).sum = 1 ∧
    3 ≤ expectedRating (probsFromCumul [1/4, 1/2]) [3, 4, 5] ∧
    expectedRating (probsFromCumul [1/4, 1/2]) [3, 4, 5] ≤ 5 := by
  have h := decomposition_identity [1/4, 1/2] [3, 4, 5] 4 3 5
    (by norm_num [List.chain'_cons])
    (by norm_num)
    (by
      intro l hl
      simp only [List.mem_cons, List.not_mem_nil, or_false] at hl
      rcases hl with rfl | rfl | rfl <;> norm_num)
  exact ⟨h.1, h.2.2.1, h.2.2.2.1⟩

/-! ### C6 / C10: model-frame row filtering and enrollment imputation -/

/-- A ModelFrame row that is complete in every `core` field but has a
missing `total_enrollment`. -/
def missingEnrollRow : ModelRow :=
  { contract_id := "H1", contract_year := 2024, stars := some 4, poverty_exposure := some 1,
    rural_exposure := some 0, hpsa_exposure := some 0, hhi := some 1, entropy := some 0,
    top1_share := some 1, top5_share := some 1, n_counties := some 1,
    total_enrollment := none }

/-- C6 counterexample: a row missing (only) the required feature
`total_enrollment` is NOT dropped before fitting — `dropna(subset=core)`
keeps it because `total_enrollment` is not in the `core` list. -/
theorem drop_core_missing_enrollment_kept :
    missingEnrollRow.total_enrollment = none ∧
    dropCore [missingEnrollRow] = [missingEnrollRow] :=
  ⟨rfl, rfl⟩

/-- C6 (amended): before fitting, exactly the rows missing the rating, an
exposure variant, or a concentration metric are dropped; a missing
`total_enrollment` does not cause a drop (it is imputed downstream). -/
theorem drop_core_spec (frame : List ModelRow) (r : ModelRow) :
    r ∈ dropCore frame ↔
      (r ∈ frame ∧ r.stars.isSome = true ∧ r.poverty_exposure.isSome = true ∧
       r.rural_exposure.isSome = true ∧ r.hpsa_exposure.isSome = true ∧
       r.hhi.isSome = true ∧ r.entropy.isSome = true ∧ r.top1_share.isSome = true ∧
       r.top5_share.isSome = true ∧ r.n_counties.isSome = true) := by
  simp [dropCore, coreComplete, List.mem_filter, Bool.and_eq_true, and_assoc]

/-- Witness for `drop_core_spec`. -/
theorem drop_core_spec_witness :
    missingEnrollRow ∈ dropCore [missingEnrollRow] :=
  (drop_core_spec [missingEnrollRow] missingEnrollRow).mpr
    ⟨List.mem_singleton_self _, rfl, rfl, rfl, rfl, rfl, rfl, rfl, rfl, rfl⟩

/-- C10: a ModelFrame row whose `total_enrollment` is missing after the joins
is not excluded from fitting: it survives the core dropna, its enrollment is
replaced by 1 (and any value below 1 is clipped up to 1), and its
log-enrollment feature is therefore 0. -/
theorem enrollment_imputation_spec (frame : List ModelRow) (r : ModelRow)
    (hr : r ∈ frame) (hcore : coreComplete r = true) (hmiss : r.total_enrollment = none) :
    r ∈ dropCore frame ∧
    imputeEnroll r.total_enrollment = 1 ∧
    logEnroll r.total_enrollment = 0 ∧
    (∀ e : ℚ, e ≤ 1 → imputeEnroll (some e) = 1) := by
  refine ⟨List.mem_filter.mpr ⟨hr, hcore⟩, ?_, ?_, ?_⟩
  · rw [hmiss]
    simp [imputeEnroll]
  · rw [hmiss]
    simp [logEnroll, imputeEnroll]
  · intro e he
    simp [imputeEnroll, max_eq_right he]

/-- Witness for `enrollment_imputation_spec` at the concrete row. -/
theorem enrollment_imputation_spec_witness :
    missingEnrollRow ∈ dropCore [missingEnrollRow] ∧
    imputeEnroll missingEnrollRow.total_enrollment = 1 ∧
    logEnroll missingEnrollRow.total_enrollment = 0 := by
  have h := enrollment_imputation_spec [missingEnrollRow] missingEnrollRow
    (List.mem_singleton_self _) rfl rfl
  exact ⟨h.1, h.2.1, h.2.2.1⟩

/-! ### C8: null exposure excluded from the near-threshold sample -/

/-- C8: if every exposure row of a contract-year has null exposure or is
flagged out of scope, then no row of the near-threshold table carries that
contract-year — whatever its rating; null exposure means exclusion, never a
zero exposure. -/
theorem near_threshold_excludes_out_of_scope (stars : List StarsRow) (exps : List ExposureRow)
    (cid : String) (y : Int)
    (h : ∀ p ∈ exps, p.contract_id = cid → p.contract_year = y →
           (p.exposure = none ∨ p.out_of_scope = true)) :
    ∀ row ∈ nearThreshold stars exps,
      ¬(row.base.contract_id = cid ∧ row.base.contract_year = y) := by
  intro row hrow hkey
  obtain ⟨hc, hy⟩ := hkey
  simp only [nearThreshold, List.mem_map, List.mem_filter] at hrow
  obtain ⟨b, ⟨hbj, hkeep⟩, rfl⟩ := hrow
  simp only [baseJoin, List.mem_flatMap] at hbj
  obtain ⟨s, hs, hb⟩ := hbj
  by_cases hms : (exps.filter (fun p =>
      decide (p.contract_id = s.contract_id ∧ p.contract_year = s.contract_year))).isEmpty
  · rw [if_pos hms] at hb
    simp only [List.mem_singleton] at hb
    subst hb
    cases hsr : s.stars_rating <;> simp [ntKeep, hsr] at hkeep
  · rw [if_neg hms] at hb
    simp only [List.mem_map] at hb
    obtain ⟨p, hpm, hb⟩ := hb
    have hpe := List.mem_filter.mp hpm
    have hpkey : p.contract_id = s.contract_id ∧ p.contract_year = s.contract_year := by
      simpa using hpe.2
    subst hb
    have hpc : p.contract_id = cid := by rw [hpkey.1]; exact hc
    have hpy : p.contract_year = y := by rw [hpkey.2]; exact hy
    rcases h p hpe.1 hpc hpy with hnone | hoos
    · cases hsr : s.stars_rating <;> simp [ntKeep, hsr, hnone] at hkeep
    · cases hsr : s.stars_rating <;> cases hpv : p.exposure <;>
        simp [ntKeep, hsr, hpv, hoos] at hkeep

/-- A stars row whose rating 4.0 lies within the threshold band. -/
def demoStars : List StarsRow :=
  [⟨"B", 2024, some 4⟩]

/-- An exposure table in which contract B 2024 is out of scope with null
exposure. -/
def demoOOSExposure : List ExposureRow :=
  [⟨"B", 2024, 0, none, 0, true⟩]

/-- The near-threshold row contract B 2024 would produce were it included. -/
def demoOOSRow : NTRow :=
  { base := { contract_id := "B", contract_year := 2024, stars_rating := some 4
              poverty_exposure := none, coverage_weight_share := some 0
              out_of_scope_geography := some true, total_enrollment := some 0 }
    above_4star := true, threshold_band := "4.0-4.5" }

/-- Witness for `near_threshold_excludes_out_of_scope`: contract B 2024 has
rating 4.0 (within band) but null, out-of-scope exposure, and its row is not
in the near-threshold table. -/
theorem near_threshold_excludes_out_of_scope_witness :
    demoOOSRow ∉ nearThreshold demoStars demoOOSExposure := fun hmem =>
  near_threshold_excludes_out_of_scope demoStars demoOOSExposure "B" 2024 (by decide)
    demoOOSRow hmem ⟨rfl, rfl⟩

/-! ### C9: bootstrap determinism and draw-order independence -/

/-- C9: the bootstrap is a pure function of the input data and the seed —
two runs with the same seed and data produce identical resample draws and
identical summary statistics — and each year's summary statistics (mean and
2.5/50/97.5 percentiles) are invariant under any reordering of the
replicate draws. -/
theorem bootstrap_determinism :
    (∀ (df : List ThresholdRow) (n s₁ s₂ : ℕ), s₁ = s₂ →
       bootstrapDiff df n s₁ = bootstrapDiff df n s₂ ∧
       summarizeBoot (bootstrapDiff df n s₁) BootRow.diff_unweighted
         = summarizeBoot (bootstrapDiff df n s₂) BootRow.diff_unweighted ∧
       summarizeBoot (bootstrapDiff df n s₁) BootRow.diff_enroll_weighted
         = summarizeBoot (bootstrapDiff df n s₂) BootRow.diff_enroll_weighted) ∧
    (∀ l₁ l₂ : List ℚ, List.Perm l₁ l₂ → summarizeYear l₁ = summarizeYear l₂) := by
  constructor
  · rintro df n s₁ s₂ rfl
    exact ⟨rfl, rfl, rfl⟩
  · intro l₁ l₂ hperm
    have hsort : List.insertionSort (fun a b => a ≤ b) l₁ =
        List.insertionSort (fun a b => a ≤ b) l₂ :=
      List.eq_of_perm_of_sorted
        ((List.perm_insertionSort _ l₁).trans (hperm.trans (List.perm_insertionSort _ l₂).symm))
        (List.sorted_insertionSort _ l₁) (List.sorted_insertionSort _ l₂)
    simp only [summarizeYear, meanQ, percentileQ, hperm.sum_eq, hperm.length_eq, hsort]

/-- Witness for `bootstrap_determinism`: two runs at the default seed agree,
and a two-replicate summary is unchanged by swapping the draw order. -/
theorem bootstrap_determinism_witness :
    bootstrapDiff [] N_BOOT RNG_SEED = bootstrapDiff [] N_BOOT RNG_SEED ∧
    summarizeYear [3, 7] = summarizeYear [7, 3] :=
  ⟨(bootstrap_determinism.1 [] N_BOOT RNG_SEED RNG_SEED rfl).1,
   bootstrap_determinism.2 [3, 7] [7, 3] (by decide)⟩

end MAStars
